import Mathlib

/-!
# gh project delete / gh project item-list

A shallow embedding of `pkg/cmd/project/delete/delete.go` and
`pkg/cmd/project/item-list/item_list.go`.

The two commands talk to collaborators that live outside these files (the
query client, the io streams, the table printer).  Each collaborator is a
record of functions over an abstract world `W`; every call the command code
makes is appended to a trace, so that "X is called once" and "Y is never
called" are statements about the trace.
-/

namespace GhProject

/-! ## Data model -/

/-- Go `error` values that the two commands can return: the two error kinds built
by `cmdutil` in these files, and any other error handed back by a collaborator. -/
inductive Error where
  | FlagError (msg : String)
  | NoResultsError (msg : String)
  | other (msg : String)
  deriving DecidableEq

/-- Modelled from the spec: `queries.Owner`, of which the commands read `Login`. -/
structure Owner where
  Login : String
  ID : String
  Kind : String
  deriving DecidableEq

/-- Modelled from the spec: `queries.ProjectItem`, given by the values of its five
accessor methods `Type()` (field `Typ`), `Title()`, `Number()`, `Repo()`, `ID()`. -/
structure ProjectItem where
  Typ : String
  Title : String
  Number : Int
  Repo : String
  ID : String
  deriving DecidableEq

/-- The `Items` connection of a project: `project.Items.Nodes`. -/
structure ItemConnection where
  Nodes : List ProjectItem
  deriving DecidableEq

/-- Modelled from the spec: `queries.Project`, with the fields the commands read. -/
structure Project where
  ID : String
  Number : Int
  Title : String
  Items : ItemConnection
  deriving DecidableEq

/-- The Go zero value of `queries.Project`. -/
def Project.zero : Project := ⟨"", 0, "", ⟨[]⟩⟩

/-- The response shape `deleteProjectMutation` (`DeleteProject.Project`). -/
structure deleteProjectMutation where
  DeleteProject : Project
  deriving DecidableEq

/-- `githubv4.DeleteProjectV2Input`, of which only `ProjectID` is set. -/
structure DeleteProjectV2Input where
  ProjectID : String
  deriving DecidableEq

/-- The values stored in the `map[string]interface{}` of GraphQL variables. -/
inductive GqlValue where
  | Input (v : DeleteProjectV2Input)
  | IntVal (n : Int)
  | StringPtr (p : Option String)
  deriving DecidableEq

/-- A Go `map[string]interface{}` of GraphQL variables, as an association list
with pairwise distinct keys. -/
abbrev Variables := List (String × GqlValue)

/-- One call made by the command code to a collaborator. -/
inductive Event where
  | NewOwner (canPrompt : Bool) (login : String)
  | NewProject (canPrompt : Bool) (owner : Owner) (number : Int) (fields : Bool)
  | Mutate (name : String) (query : deleteProjectMutation) (vars : Variables)
  | ProjectItems (owner : Owner) (number : Int) (limit : Int)
  | Write (b : String)
  | HeaderRow (cols : List String)
  | AddField (s : String)
  | EndRow
  | Render
  deriving DecidableEq

/-- Events that put something on the output: a write to `io.Out`, or any call to
the table printer. -/
def Event.isOutput : Event → Bool
  | .Write _ => true
  | .HeaderRow _ => true
  | .AddField _ => true
  | .EndRow => true
  | .Render => true
  | _ => false

/-- The state threaded through a command: the collaborators' world and the trace
of calls made so far. -/
structure State (W : Type) where
  world : W
  trace : List Event

/-- The result of a Go function returning `error`: `.ok ()` is `nil`. -/
abbrev Result (W : Type) := Except Error Unit × State W

/-- The collaborator `*queries.Client`.  A method returns either an error or its value
and the world it leaves behind; a returned pointer (`*Owner`, `*Project`) is the value
it points to. -/
structure Client (W : Type) where
  NewOwner : Bool → String → W → Except Error Owner × W
  NewProject : Bool → Owner → Int → Bool → W → Except Error Project × W
  Mutate : String → deleteProjectMutation → Variables → W → Except Error Unit × W
  ProjectItems : Owner → Int → Int → W → Except Error Project × W

/-- The collaborator `*iostreams.IOStreams`; `Out` is the writer behind `io.Out`. -/
structure IOStreams (W : Type) where
  CanPrompt : W → Bool
  IsStdoutTTY : W → Bool
  Out : String → W → Except Error Unit × W

/-- The collaborator `*tableprinter.TablePrinter`. -/
structure TablePrinter (W : Type) where
  HeaderRow : List String → W → W
  AddField : String → W → W
  EndRow : W → W
  Render : W → Except Error Unit × W

section calls
variable {W : Type}

/-- Record an event. -/
def State.log (s : State W) (w : W) (e : Event) : State W :=
  ⟨w, s.trace ++ [e]⟩

/-- The call `client.NewOwner(canPrompt, login)`. -/
def Client.callNewOwner (c : Client W) (canPrompt : Bool) (login : String) (s : State W) :
    Except Error Owner × State W :=
  let r := c.NewOwner canPrompt login s.world
  (r.1, s.log r.2 (.NewOwner canPrompt login))

/-- The call `client.NewProject(canPrompt, owner, number, fields)`. -/
def Client.callNewProject (c : Client W) (canPrompt : Bool) (owner : Owner) (number : Int)
    (fields : Bool) (s : State W) : Except Error Project × State W :=
  let r := c.NewProject canPrompt owner number fields s.world
  (r.1, s.log r.2 (.NewProject canPrompt owner number fields))

/-- The call `client.Mutate(name, query, vars)`. -/
def Client.callMutate (c : Client W) (name : String) (query : deleteProjectMutation)
    (vars : Variables) (s : State W) : Result W :=
  let r := c.Mutate name query vars s.world
  (r.1, s.log r.2 (.Mutate name query vars))

/-- The call `client.ProjectItems(owner, number, limit)`. -/
def Client.callProjectItems (c : Client W) (owner : Owner) (number : Int) (limit : Int)
    (s : State W) : Except Error Project × State W :=
  let r := c.ProjectItems owner number limit s.world
  (r.1, s.log r.2 (.ProjectItems owner number limit))

/-- A write of `b` to `io.Out`. -/
def IOStreams.callWrite (io : IOStreams W) (b : String) (s : State W) : Result W :=
  let r := io.Out b s.world
  (r.1, s.log r.2 (.Write b))

/-- The call `tp.HeaderRow(cols...)`. -/
def TablePrinter.callHeaderRow (tp : TablePrinter W) (cols : List String) (s : State W) :
    State W :=
  s.log (tp.HeaderRow cols s.world) (.HeaderRow cols)

/-- The call `tp.AddField(f)`. -/
def TablePrinter.callAddField (tp : TablePrinter W) (f : String) (s : State W) : State W :=
  s.log (tp.AddField f s.world) (.AddField f)

/-- The call `tp.EndRow()`. -/
def TablePrinter.callEndRow (tp : TablePrinter W) (s : State W) : State W :=
  s.log (tp.EndRow s.world) .EndRow

/-- The call `tp.Render()`. -/
def TablePrinter.callRender (tp : TablePrinter W) (s : State W) : Result W :=
  let r := tp.Render s.world
  (r.1, s.log r.2 .Render)

end calls

/-! ## Go library functions used by the commands -/

namespace strconv

/-- The `Err` field of a `*strconv.NumError`. -/
inductive NumError where
  | ErrSyntax
  | ErrRange
  | ErrBase
  | ErrBitSize
  deriving DecidableEq

/-- The byte operation `lower(c) = c | ('x' - 'X')`. -/
def lower (c : Nat) : Nat := c ||| 32

/-- The digit value that the `switch` in the loop of `ParseUint` assigns to one character
of the input, `none` for its `default` branch.  Go switches on bytes; a character
above U+007F is encoded by bytes that are all at least 0x80, and the first of them
takes the `default` branch. -/
def digitVal (c : Char) : Option Nat :=
  if 48 ≤ c.toNat ∧ c.toNat ≤ 57 then some (c.toNat - 48)
  else if c.toNat < 128 ∧ 97 ≤ lower c.toNat ∧ lower c.toNat ≤ 122 then
    some (lower c.toNat - 97 + 10)
  else none

/-- The loop of `ParseUint` over the remaining characters, `n` being the `uint64`
accumulated so far. -/
def ParseUint.loop (base cutoff maxVal : Nat) : List Char → Nat → Nat × Option NumError
  | [], n => (n, none)
  | c :: cs, n =>
    match digitVal c with
    | none => (0, some .ErrSyntax)
    | some d =>
      if d ≥ base then (0, some .ErrSyntax)
      else if n ≥ cutoff then (maxVal, some .ErrRange)
      else
        let n0 := (n * base) % 2 ^ 64
        let n1 := (n0 + d) % 2 ^ 64
        if n1 < n0 ∨ n1 > maxVal then (maxVal, some .ErrRange)
        else ParseUint.loop base cutoff maxVal cs n1

/-- Go's `strconv.ParseUint(s, base, bitSize)` for an explicit base `2 ≤ base ≤ 36`
(the commands pass base 10).  Base 0, where Go reads the base off the string, is not
embedded and is reported as `ErrBase`. -/
def ParseUint (s : List Char) (base bitSize : Nat) : Nat × Option NumError :=
  if s = [] then (0, some .ErrSyntax)
  else if ¬ (2 ≤ base ∧ base ≤ 36) then (0, some .ErrBase)
  else if bitSize > 64 then (0, some .ErrBitSize)
  else
    let bitSize := if bitSize = 0 then 64 else bitSize
    let cutoff := (2 ^ 64 - 1) / base + 1
    let maxVal := 2 ^ bitSize - 1
    ParseUint.loop base cutoff maxVal s 0

/-- Conversion to `int64`. -/
def int64 (z : Int) : Int := (z + 2 ^ 63) % 2 ^ 64 - 2 ^ 63

/-- Conversion to `int32`. -/
def int32 (z : Int) : Int := (z + 2 ^ 31) % 2 ^ 32 - 2 ^ 31

/-- Go's `strconv.ParseInt(s, base, bitSize)`: the value and the error (`none` is
`nil`). -/
def ParseInt (s : String) (base bitSize : Nat) : Int × Option NumError :=
  match s.data with
  | [] => (0, some .ErrSyntax)
  | c :: rest =>
    let neg := c = '-'
    let body := if c = '+' then rest else if c = '-' then rest else c :: rest
    match ParseUint body base bitSize with
    | (un, err) =>
      if err ≠ none ∧ err ≠ some .ErrRange then (0, err)
      else
        let bitSize := if bitSize = 0 then 64 else bitSize
        let cutoff := 2 ^ (bitSize - 1)
        if ¬ neg ∧ un ≥ cutoff then (int64 (cutoff - 1), some .ErrRange)
        else if neg ∧ un > cutoff then (- int64 cutoff, some .ErrRange)
        else
          let n := int64 un
          (if neg then int64 (- n) else n, none)

/-- The decimal digits of `n`, most significant first (`fuel` bounds the number of
digits). -/
def decDigits : Nat → Nat → List Char
  | 0, _ => []
  | fuel + 1, n =>
    if n < 10 then [Char.ofNat (48 + n)]
    else decDigits fuel (n / 10) ++ [Char.ofNat (48 + n % 10)]

/-- Go's `strconv.Itoa(i)`, that is `FormatInt(int64(i), 10)`: a minus sign for a
negative `i`, then the decimal digits of its magnitude. -/
def Itoa (i : Int) : String :=
  if i < 0 then String.mk ('-' :: decDigits (i.natAbs + 1) i.natAbs)
  else String.mk (decDigits (i.natAbs + 1) i.natAbs)

end strconv

/-- The error of `cmdutil.FlagErrorf("invalid number: %v", arg)`: a flag error whose
message is the format with `%v` replaced by the string `arg`. -/
def FlagErrorf_invalid_number (arg : String) : Error :=
  .FlagError ("invalid number: " ++ arg)

/-- The string of `fmt.Sprintf("Project %d for login %s has no items", number, login)`:
`%d` is the signed decimal numeral of `number`, `%s` is `login`. -/
def Sprintf_no_items (number : Int) (login : String) : String :=
  "Project " ++ strconv.Itoa number ++ " for login " ++ login ++ " has no items"

/-- The struct `cmdutil.Factory`, of which the commands read `IOStreams`. -/
structure Factory (W : Type) where
  IOStreams : IOStreams W

/-! ## Package `delete` -/

namespace delete

/-- The struct `deleteOpts`. -/
structure deleteOpts where
  login : String
  number : Int
  projectID : String
  format : String
  deriving DecidableEq

/-- The struct `deleteConfig`. -/
structure deleteConfig (W : Type) where
  tp : TablePrinter W
  client : Client W
  opts : deleteOpts
  io : IOStreams W

variable {W : Type}

/-- The function `deleteItemArgs`. -/
def deleteItemArgs (config : deleteConfig W) : deleteProjectMutation × Variables :=
  (⟨Project.zero⟩,
   [("input", .Input ⟨config.opts.projectID⟩),
    ("firstItems", .IntVal 0),
    ("afterItems", .StringPtr none),
    ("firstFields", .IntVal 0),
    ("afterFields", .StringPtr none)])

/-- The function `printResults` of package `delete`. -/
def printResults (config : deleteConfig W) (s : State W) : Result W :=
  if !config.io.IsStdoutTTY s.world then
    (.ok (), s)
  else
    config.io.callWrite "Deleted project\n" s

/-- The function `printJSON` of package `delete`; `JSONProject` stands for
`format.JSONProject`. -/
def printJSON (JSONProject : Project → Except Error String) (config : deleteConfig W)
    (project : Project) (s : State W) : Result W :=
  match JSONProject project with
  | .error err => (.error err, s)
  | .ok b => config.tp.callRender (config.tp.callAddField b s)

/-- The function `runDelete`. -/
def runDelete (JSONProject : Project → Except Error String) (config : deleteConfig W)
    (s : State W) : Result W :=
  let canPrompt := config.io.CanPrompt s.world
  match config.client.callNewOwner canPrompt config.opts.login s with
  | (.error err, s1) => (.error err, s1)
  | (.ok owner, s1) =>
    match config.client.callNewProject canPrompt owner config.opts.number false s1 with
    | (.error err, s2) => (.error err, s2)
    | (.ok project, s2) =>
      let config := { config with opts := { config.opts with projectID := project.ID } }
      let (query, vars) := deleteItemArgs config
      match config.client.callMutate "DeleteProject" query vars s2 with
      | (.error err, s3) => (.error err, s3)
      | (.ok (), s3) =>
        if config.opts.format == "json" then
          printJSON JSONProject config project s3
        else
          printResults config s3

/-- The `RunE` closure of the command built by `NewCmdDelete(f, runF)`, run with the
flag values `login` and `format` and the positional arguments `args` (at most one:
`cobra.MaximumNArgs(1)`).  `opts` starts as the zero `deleteOpts` with the two flags
bound.  `NewClient` stands for `queries.NewClient`, `tableprinterNew` for
`tableprinter.New`. -/
def NewCmdDelete (NewClient : W → Except Error (Client W) × W)
    (tableprinterNew : IOStreams W → TablePrinter W)
    (JSONProject : Project → Except Error String)
    (f : Factory W) (runF : Option (deleteConfig W → State W → Result W))
    (login format : String) (args : List String) (s : State W) : Result W :=
  let opts : deleteOpts := { login := login, number := 0, projectID := "", format := format }
  match NewClient s.world with
  | (.error err, w1) => (.error err, ⟨w1, s.trace⟩)
  | (.ok client, w1) =>
    let s1 : State W := ⟨w1, s.trace⟩
    let parsed : Except Error deleteOpts :=
      match args with
      | [arg] =>
        match strconv.ParseInt arg 10 32 with
        | (_, some _) => .error (FlagErrorf_invalid_number arg)
        | (num, none) => .ok { opts with number := strconv.int32 num }
      | _ => .ok opts
    match parsed with
    | .error err => (.error err, s1)
    | .ok opts =>
      let t := tableprinterNew f.IOStreams
      let config : deleteConfig W := { tp := t, client := client, opts := opts, io := f.IOStreams }
      match runF with
      | some run => run config s1
      | none => runDelete JSONProject config s1

end delete

/-! ## Package `itemlist` -/

namespace itemlist

/-- The struct `listOpts`. -/
structure listOpts where
  limit : Int
  login : String
  number : Int
  format : String
  deriving DecidableEq

/-- The struct `listConfig`. -/
structure listConfig (W : Type) where
  io : IOStreams W
  tp : TablePrinter W
  client : Client W
  opts : listOpts

variable {W : Type}

/-- The string added as the Number column for an item: the `if i.Number() == 0` of
the loop in `printResults`. -/
def numberField (i : ProjectItem) : String :=
  if i.Number == 0 then "" else strconv.Itoa i.Number

/-- One iteration of the loop of `printResults`. -/
def printResults.row (config : listConfig W) (i : ProjectItem) (s : State W) : State W :=
  let s := config.tp.callAddField i.Typ s
  let s := config.tp.callAddField i.Title s
  let s := if i.Number == 0 then config.tp.callAddField "" s
           else config.tp.callAddField (strconv.Itoa i.Number) s
  let s := config.tp.callAddField i.Repo s
  let s := config.tp.callAddField i.ID s
  config.tp.callEndRow s

/-- The function `printResults` of package `itemlist`. -/
def printResults (config : listConfig W) (items : List ProjectItem) (login : String)
    (s : State W) : Result W :=
  if items.length == 0 then
    (.error (.NoResultsError (Sprintf_no_items config.opts.number login)), s)
  else
    let s := config.tp.callHeaderRow ["Type", "Title", "Number", "Repository", "ID"] s
    let s := items.foldl (fun s i => printResults.row config i s) s
    config.tp.callRender s

/-- The function `printJSON` of package `itemlist`; `JSONProjectDetailedItems` stands
for `format.JSONProjectDetailedItems`. -/
def printJSON (JSONProjectDetailedItems : Project → Except Error String)
    (config : listConfig W) (project : Project) (s : State W) : Result W :=
  match JSONProjectDetailedItems project with
  | .error err => (.error err, s)
  | .ok b => config.io.callWrite b s

/-- The function `runList`. -/
def runList (JSONProjectDetailedItems : Project → Except Error String)
    (config : listConfig W) (s : State W) : Result W :=
  let canPrompt := config.io.CanPrompt s.world
  match config.client.callNewOwner canPrompt config.opts.login s with
  | (.error err, s1) => (.error err, s1)
  | (.ok owner, s1) =>
    let resolved : Except Error (listConfig W) × State W :=
      if config.opts.number == 0 then
        match config.client.callNewProject canPrompt owner config.opts.number false s1 with
        | (.error err, s2) => (.error err, s2)
        | (.ok project, s2) =>
          (.ok { config with opts := { config.opts with number := project.Number } }, s2)
      else (.ok config, s1)
    match resolved with
    | (.error err, s2) => (.error err, s2)
    | (.ok config, s2) =>
      match config.client.callProjectItems owner config.opts.number config.opts.limit s2 with
      | (.error err, s3) => (.error err, s3)
      | (.ok project, s3) =>
        if config.opts.format == "json" then
          printJSON JSONProjectDetailedItems config project s3
        else
          printResults config project.Items.Nodes owner.Login s3

/-- The `RunE` closure of the command built by `NewCmdList(f, runF)`, run with the
flag values `login`, `format` and `limit` and the positional arguments `args` (at most
one: `cobra.MaximumNArgs(1)`).  `opts` starts as the zero `listOpts` with the three
flags bound.  `clientNew` stands for `client.New`, `tableprinterNew` for
`tableprinter.New`. -/
def NewCmdList (clientNew : Factory W → W → Except Error (Client W) × W)
    (tableprinterNew : IOStreams W → TablePrinter W)
    (JSONProjectDetailedItems : Project → Except Error String)
    (f : Factory W) (runF : Option (listConfig W → State W → Result W))
    (login format : String) (limit : Int) (args : List String) (s : State W) : Result W :=
  let opts : listOpts := { limit := limit, login := login, number := 0, format := format }
  match clientNew f s.world with
  | (.error err, w1) => (.error err, ⟨w1, s.trace⟩)
  | (.ok client, w1) =>
    let s1 : State W := ⟨w1, s.trace⟩
    let parsed : Except Error listOpts :=
      match args with
      | [arg] =>
        match strconv.ParseInt arg 10 32 with
        | (_, some _) => .error (FlagErrorf_invalid_number arg)
        | (num, none) => .ok { opts with number := strconv.int32 num }
      | _ => .ok opts
    match parsed with
    | .error err => (.error err, s1)
    | .ok opts =>
      let t := tableprinterNew f.IOStreams
      let config : listConfig W := { io := f.IOStreams, tp := t, client := client, opts := opts }
      match runF with
      | some run => run config s1
      | none => runList JSONProjectDetailedItems config s1

end itemlist

/-! ## The paginated item fetcher (package `queries`) -/

namespace queries

/-- Modelled from the spec: one response of the backing service to an item-page
request (`queries` is not among the sources): the project with the items of that page
in server order, and the cursor of the next page, `none` when the server signals that
there is no further page. -/
structure Page where
  Project : Project
  EndCursor : Option Nat

/-- Modelled from the spec: the fixed maximum page size, a server-imposed ceiling. -/
def LimitMax : Nat := 100

/-- Modelled from the spec: the loop of the Paginated Item Fetcher (§4.3).  `server`
answers a request for the page after `cursor` (`none`: from the start) of at most
`first` items; `merged` is the project with the items accumulated so far.  The loop
stops when the accumulated count reaches `limit` or when the server returns no further
cursor; a transport error aborts the fetch and no partial result is returned.  `fuel`
bounds the number of round trips. -/
def ProjectItems.loop (server : Option Nat → Nat → Except Error Page) (limit : Int) :
    Nat → Option Nat → Project → Except Error Project
  | 0, _, _ => .error (.other "pagination: out of fuel")
  | fuel + 1, cursor, merged =>
    if (merged.Items.Nodes.length : Int) ≥ limit then .ok merged
    else
      let first := min LimitMax (limit - merged.Items.Nodes.length).toNat
      match server cursor first with
      | .error err => .error err
      | .ok page =>
        let merged : GhProject.Project :=
          { page.Project with Items := ⟨merged.Items.Nodes ++ page.Project.Items.Nodes⟩ }
        match page.EndCursor with
        | none => .ok merged
        | some next => ProjectItems.loop server limit fuel (some next) merged

/-- Modelled from the spec: the Paginated Item Fetcher `ProjectItems(owner, number,
limit)` (§4.3, `FetchItems`): the merged project of the loop, its item collection
truncated to `limit`. -/
def ProjectItems (server : Owner → Int → Option Nat → Nat → Except Error Page)
    (fuel : Nat) (owner : Owner) (number : Int) (limit : Int) : Except Error Project :=
  match ProjectItems.loop (server owner number) limit fuel none Project.zero with
  | .error err => .error err
  | .ok merged => .ok { merged with Items := ⟨merged.Items.Nodes.take limit.toNat⟩ }

/-- Modelled from the spec: a backing service that serves the given sequence of pages,
whatever page size is asked for; the cursor is the index of the next page. -/
def serverOfPages (header : GhProject.Project) (pages : List (List ProjectItem))
    (cursor : Option Nat) (_first : Nat) : Except Error Page :=
  let k := cursor.getD 0
  .ok ⟨{ header with Items := ⟨pages.getD k []⟩ },
       if k + 1 < pages.length then some (k + 1) else none⟩

end queries

/-! ## Reading a table off the trace -/

/-- The rows that a sequence of table-printer calls builds: `AddField` appends a field
to the current row and `EndRow` closes it (`cur` is the current row). -/
def tableRows : List Event → List String → List (List String)
  | [], _ => []
  | .AddField f :: es, cur => tableRows es (cur ++ [f])
  | .EndRow :: es, cur => cur :: tableRows es []
  | _ :: es, cur => tableRows es cur

/-- The five fields of the table row of one item, in column order. -/
def rowFields (i : ProjectItem) : List String :=
  [i.Typ, i.Title, itemlist.numberField i, i.Repo, i.ID]

/-- The table-printer calls of the table row of one item. -/
def rowEvents (i : ProjectItem) : List Event :=
  (rowFields i).map Event.AddField ++ [Event.EndRow]

/-- The events that a run appended to the trace `before`. -/
def newEvents (before after : List Event) : List Event :=
  after.drop before.length

/-- The calls to the query client that a run appended to the trace `before`: the new
events that are not output calls. -/
def clientCalls (before after : List Event) : List Event :=
  (newEvents before after).filter (fun e => !e.isOutput)

/-! ## What a decimal numeral denotes

The reading of "a base-10 signed integer" that the command arguments are compared
with: an optional sign `+` or `-` followed by one or more of the digits `0` to `9`. -/

namespace Spec

/-- Whether `c` is one of the digits `0` to `9`. -/
def isDecimalDigit (c : Char) : Bool := decide (48 ≤ c.toNat ∧ c.toNat ≤ 57)

/-- The number that a string of decimal digits denotes after the digits `a`. -/
def digitsValueFrom (a : Nat) (ds : List Char) : Nat :=
  ds.foldl (fun a c => 10 * a + (c.toNat - 48)) a

/-- The number that a string of decimal digits denotes. -/
def digitsValue (ds : List Char) : Nat := digitsValueFrom 0 ds

/-- One or more decimal digits. -/
def isDigits (ds : List Char) : Bool := !ds.isEmpty && ds.all isDecimalDigit

/-- The integer that `s` denotes as a base-10 signed integer, `none` when `s` is not
of that form. -/
def denotedInt (s : String) : Option Int :=
  match s.data with
  | [] => none
  | c :: rest =>
    if c = '-' then (if isDigits rest then some (-(digitsValue rest : Int)) else none)
    else if c = '+' then (if isDigits rest then some (digitsValue rest : Int) else none)
    else (if isDigits (c :: rest) then some (digitsValue (c :: rest) : Int) else none)

/-- The 32-bit signed range. -/
def inInt32 (z : Int) : Prop := -2 ^ 31 ≤ z ∧ z ≤ 2 ^ 31 - 1

instance (z : Int) : Decidable (inInt32 z) := by
  unfold inInt32
  infer_instance

end Spec

/-! ## Concrete collaborators

A world that counts the calls made to the collaborators. -/

namespace Example

/-- A resolved owner. -/
def owner : Owner := ⟨"monalisa", "U_1", "USER"⟩

/-- A project without items. -/
def project : Project := ⟨"PVT_1", 1, "Roadmap", ⟨[]⟩⟩

/-- Three items: a draft (number 0), an issue and a pull request. -/
def items : List ProjectItem :=
  [⟨"DraftIssue", "a draft", 0, "", "PVTI_1"⟩,
   ⟨"Issue", "an issue", 17, "cli/cli", "PVTI_2"⟩,
   ⟨"PullRequest", "a pull request", 208, "cli/cli", "PVTI_3"⟩]

/-- A client on which every call succeeds; `ProjectItems` returns `found`. -/
def client (found : Project) : Client Nat where
  NewOwner := fun _ _ w => (.ok owner, w + 1)
  NewProject := fun _ _ _ _ w => (.ok project, w + 1)
  Mutate := fun _ _ _ w => (.ok (), w + 1)
  ProjectItems := fun _ _ _ w => (.ok found, w + 1)

/-- A client whose owner lookup fails. -/
def clientNoOwner : Client Nat :=
  { client project with NewOwner := fun _ _ w => (.error (.other "owner not found"), w + 1) }

/-- A client whose project lookup fails. -/
def clientNoProject : Client Nat :=
  { client project with
    NewProject := fun _ _ _ _ w => (.error (.other "project not found"), w + 1) }

/-- A client whose mutation fails. -/
def clientNoMutate : Client Nat :=
  { client project with Mutate := fun _ _ _ w => (.error (.other "mutation failed"), w + 1) }

/-- A client whose item fetch fails. -/
def clientNoItems : Client Nat :=
  { client project with
    ProjectItems := fun _ _ _ w => (.error (.other "fetch failed"), w + 1) }

/-- Streams whose standard output is a terminal iff `tty`. -/
def streams (tty : Bool) : IOStreams Nat where
  CanPrompt := fun _ => tty
  IsStdoutTTY := fun _ => tty
  Out := fun _ w => (.ok (), w + 1)

/-- A table printer. -/
def tp : TablePrinter Nat where
  HeaderRow := fun _ w => w + 1
  AddField := fun _ w => w + 1
  EndRow := fun w => w + 1
  Render := fun w => (.ok (), w + 1)

/-- A serialiser standing for `format.JSONProject` and `format.JSONProjectDetailedItems`. -/
def json (p : Project) : Except Error String := .ok ("project " ++ p.ID)

/-- The initial state. -/
def init : State Nat := ⟨0, []⟩

/-- A delete configuration. -/
def deleteCfg (c : Client Nat) (tty : Bool) (format : String) : delete.deleteConfig Nat :=
  { tp := tp, client := c, opts := ⟨"@me", 1, "stale", format⟩, io := streams tty }

/-- A list configuration. -/
def listCfg (c : Client Nat) (number : Int) (format : String) : itemlist.listConfig Nat :=
  { io := streams true, tp := tp, client := c, opts := ⟨30, "@me", number, format⟩ }

/-- A client constructor that succeeds (`queries.NewClient`). -/
def newClient (w : Nat) : Except Error (Client Nat) × Nat := (.ok (client project), w + 1)

/-- A client constructor that succeeds (`client.New`). -/
def clientNew (_ : Factory Nat) (w : Nat) : Except Error (Client Nat) × Nat :=
  (.ok (client project), w + 1)

/-- The factory of the example. -/
def factory : Factory Nat := ⟨streams true⟩
end Example

/-! ## Theorems: the library functions -/

namespace strconv

open Spec

/-- On a decimal digit the `switch` of `ParseUint` yields the digit's value. -/
theorem digitVal_digit (c : Char) (h : isDecimalDigit c = true) :
    digitVal c = some (c.toNat - 48) := by
  simp only [isDecimalDigit, decide_eq_true_eq] at h
  simp [digitVal, h]

/-- Off the decimal digits the `switch` of `ParseUint` yields no value below 10. -/
theorem digitVal_not_digit (c : Char) (h : isDecimalDigit c = false) :
    digitVal c = none ∨ ∃ d, digitVal c = some d ∧ 10 ≤ d := by
  simp only [isDecimalDigit, decide_eq_false_iff_not] at h
  unfold digitVal
  rw [if_neg h]
  split
  · exact Or.inr ⟨_, rfl, by omega⟩
  · exact Or.inl rfl

/-- The value read so far never decreases. -/
theorem le_digitsValueFrom (ds : List Char) (a : Nat) : a ≤ digitsValueFrom a ds := by
  induction ds generalizing a with
  | nil => simp [digitsValueFrom]
  | cons c cs ih =>
    have := ih (10 * a + (c.toNat - 48))
    simp only [digitsValueFrom, List.foldl_cons] at this ⊢
    omega

/-- The loop of `ParseUint(s, 10, 32)` on decimal digits whose value fits in 32 bits. -/
theorem loop_ok (cs : List Char) (n : Nat) (hn : n ≤ 4294967295)
    (hd : cs.all isDecimalDigit = true) (hv : digitsValueFrom n cs ≤ 4294967295) :
    ParseUint.loop 10 1844674407370955162 4294967295 cs n = (digitsValueFrom n cs, none) := by
  induction cs generalizing n with
  | nil => simp [ParseUint.loop, digitsValueFrom]
  | cons c cs ih =>
    simp only [List.all_cons, Bool.and_eq_true] at hd
    have hc := hd.1
    have hdig := digitVal_digit c hc
    simp only [isDecimalDigit, decide_eq_true_eq] at hc
    have hstep : 10 * n + (c.toNat - 48) ≤ 4294967295 := by
      have := le_digitsValueFrom cs (10 * n + (c.toNat - 48))
      simp only [digitsValueFrom, List.foldl_cons] at hv this
      omega
    have hrec := ih (10 * n + (c.toNat - 48)) hstep hd.2
      (by simpa only [digitsValueFrom, List.foldl_cons] using hv)
    have e0 : n * 10 % 2 ^ 64 = n * 10 := Nat.mod_eq_of_lt (by norm_num; omega)
    have e1 : (n * 10 + (c.toNat - 48)) % 2 ^ 64 = n * 10 + (c.toNat - 48) :=
      Nat.mod_eq_of_lt (by norm_num; omega)
    have e2 : n * 10 + (c.toNat - 48) = 10 * n + (c.toNat - 48) := by omega
    unfold ParseUint.loop
    simp only [hdig, e0, e1]
    rw [if_neg (by omega), if_neg (by omega), if_neg (by omega), e2, hrec]
    simp [digitsValueFrom]

/-- The loop of `ParseUint(s, 10, 32)` on anything else reports an error. -/
theorem loop_err (cs : List Char) (n : Nat) (hn : n ≤ 4294967295)
    (h : ¬ (cs.all isDecimalDigit = true ∧ digitsValueFrom n cs ≤ 4294967295)) :
    ParseUint.loop 10 1844674407370955162 4294967295 cs n = (0, some .ErrSyntax) ∨
    ParseUint.loop 10 1844674407370955162 4294967295 cs n = (4294967295, some .ErrRange) := by
  induction cs generalizing n with
  | nil =>
    exfalso
    apply h
    simp [digitsValueFrom, hn]
  | cons c cs ih =>
    cases hc : isDecimalDigit c with
    | false =>
      left
      rcases digitVal_not_digit c hc with h0 | ⟨d, h0, hd⟩
      · unfold ParseUint.loop
        simp [h0]
      · unfold ParseUint.loop
        simp only [h0]
        rw [if_pos (by omega)]
    | true =>
      have hdig := digitVal_digit c hc
      have hc2 := hc
      simp only [isDecimalDigit, decide_eq_true_eq] at hc2
      have e0 : n * 10 % 2 ^ 64 = n * 10 := Nat.mod_eq_of_lt (by norm_num; omega)
      have e1 : (n * 10 + (c.toNat - 48)) % 2 ^ 64 = n * 10 + (c.toNat - 48) :=
        Nat.mod_eq_of_lt (by norm_num; omega)
      have e2 : n * 10 + (c.toNat - 48) = 10 * n + (c.toNat - 48) := by omega
      unfold ParseUint.loop
      simp only [hdig, e0, e1]
      rw [if_neg (by omega), if_neg (by omega)]
      by_cases hbig : n * 10 + (c.toNat - 48) > 4294967295
      · right
        rw [if_pos (Or.inr hbig)]
      · rw [if_neg (by omega), e2]
        apply ih (10 * n + (c.toNat - 48)) (by omega)
        intro hcs
        apply h
        simp only [List.all_cons, hc, Bool.true_and, digitsValueFrom, List.foldl_cons]
        exact ⟨hcs.1, by simpa only [digitsValueFrom] using hcs.2⟩

/-- `ParseUint(s, 10, 32)` on one or more decimal digits whose value fits in 32 bits. -/
theorem ParseUint_ok (body : List Char) (hd : isDigits body = true)
    (hv : digitsValue body ≤ 4294967295) :
    ParseUint body 10 32 = (digitsValue body, none) := by
  simp only [isDigits, Bool.and_eq_true, Bool.not_eq_true', List.isEmpty_eq_false] at hd
  have hne : body ≠ [] := by
    intro h
    simp [h] at hd
  unfold ParseUint
  rw [if_neg hne, if_neg (by omega), if_neg (by omega)]
  simp only [show (32 : Nat) ≠ 0 by omega, if_false]
  norm_num
  exact loop_ok body 0 (by omega) hd.2 hv

/-- `ParseUint(s, 10, 32)` on anything else reports a syntax error with value 0 or a
range error with the largest 32-bit value. -/
theorem ParseUint_err (body : List Char)
    (h : ¬ (isDigits body = true ∧ digitsValue body ≤ 4294967295)) :
    ParseUint body 10 32 = (0, some .ErrSyntax) ∨
    ParseUint body 10 32 = (4294967295, some .ErrRange) := by
  unfold ParseUint
  by_cases hne : body = []
  · left
    rw [if_pos hne]
  · rw [if_neg hne, if_neg (by omega), if_neg (by omega)]
    simp only [show (32 : Nat) ≠ 0 by omega, if_false]
    norm_num
    apply loop_err body 0 (by omega)
    intro hcs
    apply h
    refine ⟨?_, hcs.2⟩
    simp only [isDigits, Bool.and_eq_true, Bool.not_eq_true', List.isEmpty_eq_false]
    exact ⟨by simpa using hne, hcs.1⟩

/-- Conversion to `int64` keeps a value of the 64-bit signed range. -/
theorem int64_eq (z : Int) (h1 : -9223372036854775808 ≤ z) (h2 : z ≤ 9223372036854775807) :
    int64 z = z := by
  unfold int64
  norm_num
  omega

/-- Conversion to `int32` keeps a value of the 32-bit signed range. -/
theorem int32_eq (z : Int) (h : inInt32 z) : int32 z = z := by
  unfold inInt32 at h
  unfold int32
  norm_num at h ⊢
  omega

/-- The sign handling and range check of `ParseInt(s, 10, 32)` on a valid numeral in
range. -/
theorem ParseInt_ok (s : String) (z : Int) (hz : denotedInt s = some z) (hr : inInt32 z) :
    ParseInt s 10 32 = (z, none) := by
  unfold denotedInt at hz
  unfold inInt32 at hr
  norm_num at hr
  have h31 : (2:Nat) ^ ((if 32 = 0 then 64 else 32) - 1) = 2147483648 := by norm_num
  unfold ParseInt
  cases hs : s.data with
  | nil => simp [hs] at hz
  | cons c rest =>
    simp only [hs] at hz ⊢
    by_cases hneg : c = '-'
    · simp only [hneg, if_true] at hz ⊢
      by_cases hd : isDigits rest = true
      · simp only [hd, if_true, Option.some.injEq] at hz
        have hbody : (if '-' = '+' then rest else rest) = rest := by simp
        rw [hbody, ParseUint_ok rest hd (by omega)]
        simp only [h31, ne_eq, not_true_eq_false, false_and, if_false, true_and]
        rw [if_neg (by omega)]
        rw [int64_eq (↑(digitsValue rest)) (by omega) (by omega),
          int64_eq _ (by omega) (by omega), hz]
      · simp [hd] at hz
    · simp only [hneg, if_false] at hz ⊢
      by_cases hpos : c = '+'
      · simp only [hpos, if_true] at hz ⊢
        by_cases hd : isDigits rest = true
        · simp only [hd, if_true, Option.some.injEq] at hz
          rw [ParseUint_ok rest hd (by omega)]
          simp only [h31, ne_eq, not_true_eq_false, false_and, if_false, true_and,
            not_false_eq_true]
          rw [if_neg (by omega)]
          rw [int64_eq (↑(digitsValue rest)) (by omega) (by omega), hz]
        · simp [hd] at hz
      · simp only [hpos, if_false] at hz ⊢
        by_cases hd : isDigits (c :: rest) = true
        · simp only [hd, if_true, Option.some.injEq] at hz
          rw [ParseUint_ok (c :: rest) hd (by omega)]
          simp only [h31, ne_eq, not_true_eq_false, false_and, if_false, true_and,
            not_false_eq_true]
          rw [if_neg (by omega)]
          rw [int64_eq (↑(digitsValue (c :: rest))) (by omega) (by omega), hz]
        · simp [hd] at hz

/-- `ParseInt(s, 10, 32)` reports an error on a string that denotes no integer of the
32-bit signed range. -/
theorem ParseInt_err (s : String) (h : ∀ z, denotedInt s = some z → ¬ inInt32 z) :
    (ParseInt s 10 32).2 ≠ none := by
  unfold denotedInt at h
  unfold inInt32 at h
  norm_num at h
  have h31 : (2:Nat) ^ ((if 32 = 0 then 64 else 32) - 1) = 2147483648 := by norm_num
  unfold ParseInt
  cases hs : s.data with
  | nil => simp
  | cons c rest =>
    simp only [hs] at h ⊢
    by_cases hneg : c = '-'
    · simp only [hneg, if_true] at h ⊢
      have hbody : (if '-' = '+' then rest else rest) = rest := by simp
      rw [hbody]
      by_cases hok : isDigits rest = true ∧ digitsValue rest ≤ 4294967295
      · rw [ParseUint_ok rest hok.1 hok.2]
        simp only [hok.1, if_true, Option.some.injEq] at h
        have := h _ rfl
        simp only [h31, ne_eq, not_true_eq_false, false_and, if_false, true_and]
        rw [if_pos (by omega)]
        simp
      · rcases ParseUint_err rest hok with he | he
        · rw [he]; simp
        · rw [he]
          simp only [h31, ne_eq, not_true_eq_false, false_and, if_false, true_and]
          simp
    · simp only [hneg, if_false] at h ⊢
      by_cases hpos : c = '+'
      · simp only [hpos, if_true] at h ⊢
        by_cases hok : isDigits rest = true ∧ digitsValue rest ≤ 4294967295
        · rw [ParseUint_ok rest hok.1 hok.2]
          simp only [hok.1, if_true, Option.some.injEq] at h
          have := h _ rfl
          simp only [h31, ne_eq, not_true_eq_false, false_and, if_false, true_and,
            not_false_eq_true]
          rw [if_pos (by omega)]
          simp
        · rcases ParseUint_err rest hok with he | he
          · rw [he]; simp
          · rw [he]
            simp only [h31, ne_eq, not_true_eq_false, false_and, if_false, true_and,
              not_false_eq_true]
            simp
      · simp only [hpos, if_false] at h ⊢
        by_cases hok : isDigits (c :: rest) = true ∧ digitsValue (c :: rest) ≤ 4294967295
        · rw [ParseUint_ok (c :: rest) hok.1 hok.2]
          simp only [hok.1, if_true, Option.some.injEq] at h
          have := h _ rfl
          simp only [h31, ne_eq, not_true_eq_false, false_and, if_false, true_and,
            not_false_eq_true]
          rw [if_pos (by omega)]
          simp
        · rcases ParseUint_err (c :: rest) hok with he | he
          · rw [he]; simp
          · rw [he]
            simp only [h31, ne_eq, not_true_eq_false, false_and, if_false, true_and,
              not_false_eq_true]
            simp

/-- The character of a digit value has the code of that digit. -/
theorem digit_char_toNat (d : Nat) (h : d < 10) : (Char.ofNat (48 + d)).toNat = 48 + d := by
  interval_cases d <;> rfl

/-- Reading digits after a block of digits. -/
theorem digitsValueFrom_append (a : Nat) (xs ys : List Char) :
    digitsValueFrom a (xs ++ ys) = digitsValueFrom (digitsValueFrom a xs) ys := by
  simp [digitsValueFrom, List.foldl_append]

/-- The digits written for `n` are decimal digits, at least one, and denote `n`. -/
theorem decDigits_spec (fuel n : Nat) (h : n < fuel) :
    (decDigits fuel n).all isDecimalDigit = true ∧ decDigits fuel n ≠ [] ∧
    digitsValue (decDigits fuel n) = n := by
  induction fuel generalizing n with
  | zero => omega
  | succ fuel ih =>
    unfold decDigits
    by_cases hn : n < 10
    · rw [if_pos hn]
      have := digit_char_toNat n hn
      simp [isDecimalDigit, digitsValue, digitsValueFrom, this]
      omega
    · rw [if_neg hn]
      obtain ⟨h1, _, h3⟩ := ih (n / 10) (by omega)
      have := digit_char_toNat (n % 10) (by omega)
      refine ⟨?_, by simp, ?_⟩
      · simp [h1, isDecimalDigit, this]
        omega
      · unfold digitsValue at h3 ⊢
        rw [digitsValueFrom_append, h3]
        simp only [digitsValueFrom, List.foldl_cons, List.foldl_nil, this]
        omega

/-- Reading back what `Itoa` wrote gives the number written. -/
theorem denotedInt_Itoa (i : Int) : denotedInt (Itoa i) = some i := by
  obtain ⟨h1, h2, h3⟩ := decDigits_spec (i.natAbs + 1) i.natAbs (by omega)
  unfold Itoa denotedInt
  by_cases hneg : i < 0
  · rw [if_pos hneg]
    have hd : isDigits (decDigits (i.natAbs + 1) i.natAbs) = true := by
      simp [isDigits, h1, h2]
    simp only [if_true, hd, h3]
    congr 1
    omega
  · rw [if_neg hneg]
    cases hds : decDigits (i.natAbs + 1) i.natAbs with
    | nil => exact absurd hds h2
    | cons c rest =>
      rw [hds] at h1 h3
      have hc : isDecimalDigit c = true := by
        simp only [List.all_cons, Bool.and_eq_true] at h1
        exact h1.1
      simp only [isDecimalDigit, decide_eq_true_eq] at hc
      have hm : c ≠ '-' := by
        intro h; rw [h] at hc; revert hc; decide
      have hp : c ≠ '+' := by
        intro h; rw [h] at hc; revert hc; decide
      have hd : isDigits (c :: rest) = true := by
        simp only [isDigits, List.isEmpty_cons, Bool.not_false, Bool.true_and]
        exact h1
      simp only [hm, hp, if_false, hd, if_true, h3]
      congr 1
      omega

/-- `Itoa` never writes the empty string, and writes "0" only for 0. -/
theorem Itoa_ne (i : Int) : Itoa i ≠ "" ∧ (i ≠ 0 → Itoa i ≠ "0") := by
  have h := denotedInt_Itoa i
  refine ⟨?_, ?_⟩
  · intro h0
    rw [h0] at h
    simp [denotedInt] at h
  · intro hi h0
    rw [h0] at h
    have : denotedInt "0" = some 0 := by decide
    rw [this] at h
    exact hi (by simpa using h.symm)

end strconv

/-! ## Theorems: traces -/

/-- The client calls of a run whose new events are `pre` followed by output calls. -/
theorem clientCalls_eq (before pre tail : List Event)
    (hpre : ∀ e ∈ pre, e.isOutput = false) (htail : ∀ e ∈ tail, e.isOutput = true) :
    clientCalls before (before ++ pre ++ tail) = pre := by
  have h1 : pre.filter (fun e => !e.isOutput) = pre :=
    List.filter_eq_self.mpr (fun e he => by simp [hpre e he])
  have h2 : tail.filter (fun e => !e.isOutput) = [] :=
    List.filter_eq_nil_iff.mpr (fun e he => by simp [htail e he])
  simp only [clientCalls, newEvents, List.append_assoc, List.drop_left, List.filter_append, h1,
    h2, List.append_nil]

/-! ## Theorems: package `delete` -/

namespace delete

variable {W : Type}

/-- C1: in `runDelete`, if `NewOwner` returns an error then `runDelete` returns that
same error and its only call is the one to `NewOwner` (neither `NewProject` nor
`Mutate` is called, nothing is written); if `NewOwner` succeeds and `NewProject`
returns an error then `runDelete` returns that same error and its only calls are those
to `NewOwner` and `NewProject` (`Mutate` is not called, nothing is written). -/
theorem runDelete_resolution_error (JSONProject : Project → Except Error String)
    (config : deleteConfig W) (s : State W) :
    (∀ err w1,
      config.client.NewOwner (config.io.CanPrompt s.world) config.opts.login s.world
        = (.error err, w1) →
      runDelete JSONProject config s
        = (.error err,
           ⟨w1, s.trace ++ [.NewOwner (config.io.CanPrompt s.world) config.opts.login]⟩)) ∧
    (∀ owner w1 err w2,
      config.client.NewOwner (config.io.CanPrompt s.world) config.opts.login s.world
        = (.ok owner, w1) →
      config.client.NewProject (config.io.CanPrompt s.world) owner config.opts.number false w1
        = (.error err, w2) →
      runDelete JSONProject config s
        = (.error err,
           ⟨w2, s.trace ++ [.NewOwner (config.io.CanPrompt s.world) config.opts.login,
              .NewProject (config.io.CanPrompt s.world) owner config.opts.number false]⟩)) := by
  refine ⟨?_, ?_⟩
  · intro err w1 h
    simp [runDelete, Client.callNewOwner, State.log, h]
  · intro owner w1 err w2 h1 h2
    simp [runDelete, Client.callNewOwner, Client.callNewProject, State.log, h1, h2]

/-- Witness for C1: a client whose owner lookup fails, and one whose project lookup
fails. -/
theorem runDelete_resolution_error_witness :
    runDelete Example.json (Example.deleteCfg Example.clientNoOwner true "") Example.init
      = (.error (.other "owner not found"), ⟨1, [.NewOwner true "@me"]⟩) ∧
    runDelete Example.json (Example.deleteCfg Example.clientNoProject true "") Example.init
      = (.error (.other "project not found"),
         ⟨2, [.NewOwner true "@me", .NewProject true Example.owner 1 false]⟩) :=
  ⟨(runDelete_resolution_error Example.json
      (Example.deleteCfg Example.clientNoOwner true "") Example.init).1
      (.other "owner not found") 1 rfl,
   (runDelete_resolution_error Example.json
      (Example.deleteCfg Example.clientNoProject true "") Example.init).2
      Example.owner 1 (.other "project not found") 2 rfl rfl⟩

/-- C2: `deleteItemArgs` returns a variables map with exactly the five keys `input`,
`firstItems`, `afterItems`, `firstFields`, `afterFields`; `input` is a
`DeleteProjectV2Input` whose `ProjectID` is `config.opts.projectID`, `firstItems` and
`firstFields` are the integer 0, `afterItems` and `afterFields` are nil string
cursors; and replacing every other field of the config leaves the result unchanged. -/
theorem deleteItemArgs_payload (config : deleteConfig W) :
    (deleteItemArgs config).2
      = [("input", .Input ⟨config.opts.projectID⟩), ("firstItems", .IntVal 0),
         ("afterItems", .StringPtr none), ("firstFields", .IntVal 0),
         ("afterFields", .StringPtr none)] ∧
    (deleteItemArgs config).2.map Prod.fst
      = ["input", "firstItems", "afterItems", "firstFields", "afterFields"] ∧
    ((deleteItemArgs config).2.map Prod.fst).Nodup ∧
    (∀ (tp : TablePrinter W) (client : Client W) (io : IOStreams W)
       (login format : String) (number : Int),
      deleteItemArgs
        { tp := tp, client := client, io := io,
          opts := { login := login, number := number, format := format,
                    projectID := config.opts.projectID } }
      = deleteItemArgs config) := by
  refine ⟨rfl, rfl, ?_, fun _ _ _ _ _ _ => rfl⟩
  simp [deleteItemArgs]

/-- C3: when owner and project resolution succeed, `runDelete` calls `Mutate` once,
as its third call, under the name "DeleteProject" and with the variables whose
`input.ProjectID` is the ID of the resolved project (whatever `opts.projectID` was);
every later call is an output call, so that its calls to the client are exactly
`NewOwner`, `NewProject`, `Mutate`; and if `Mutate` returns an error, `runDelete`
returns that error and makes no further call. -/
theorem runDelete_mutation (JSONProject : Project → Except Error String)
    (config : deleteConfig W) (s : State W) (owner : Owner) (w1 : W) (project : Project)
    (w2 : W)
    (hOwner : config.client.NewOwner (config.io.CanPrompt s.world) config.opts.login s.world
      = (.ok owner, w1))
    (hProject : config.client.NewProject (config.io.CanPrompt s.world) owner
      config.opts.number false w1 = (.ok project, w2)) :
    (∃ tail : List Event,
      (runDelete JSONProject config s).2.trace
        = s.trace ++ [.NewOwner (config.io.CanPrompt s.world) config.opts.login,
            .NewProject (config.io.CanPrompt s.world) owner config.opts.number false,
            .Mutate "DeleteProject" ⟨Project.zero⟩
              [("input", .Input ⟨project.ID⟩), ("firstItems", .IntVal 0),
               ("afterItems", .StringPtr none), ("firstFields", .IntVal 0),
               ("afterFields", .StringPtr none)]] ++ tail ∧
      ∀ e ∈ tail, e.isOutput = true) ∧
    clientCalls s.trace (runDelete JSONProject config s).2.trace
      = [.NewOwner (config.io.CanPrompt s.world) config.opts.login,
         .NewProject (config.io.CanPrompt s.world) owner config.opts.number false,
         .Mutate "DeleteProject" ⟨Project.zero⟩
           [("input", .Input ⟨project.ID⟩), ("firstItems", .IntVal 0),
            ("afterItems", .StringPtr none), ("firstFields", .IntVal 0),
            ("afterFields", .StringPtr none)]] ∧
    (∀ err w3,
      config.client.Mutate "DeleteProject" ⟨Project.zero⟩
        [("input", .Input ⟨project.ID⟩), ("firstItems", .IntVal 0),
         ("afterItems", .StringPtr none), ("firstFields", .IntVal 0),
         ("afterFields", .StringPtr none)] w2 = (.error err, w3) →
      runDelete JSONProject config s
        = (.error err,
           ⟨w3, s.trace ++ [.NewOwner (config.io.CanPrompt s.world) config.opts.login,
              .NewProject (config.io.CanPrompt s.world) owner config.opts.number false,
              .Mutate "DeleteProject" ⟨Project.zero⟩
                [("input", .Input ⟨project.ID⟩), ("firstItems", .IntVal 0),
                 ("afterItems", .StringPtr none), ("firstFields", .IntVal 0),
                 ("afterFields", .StringPtr none)]]⟩)) := by
  have hcalls : ∃ tail : List Event,
      (runDelete JSONProject config s).2.trace
        = s.trace ++ [.NewOwner (config.io.CanPrompt s.world) config.opts.login,
            .NewProject (config.io.CanPrompt s.world) owner config.opts.number false,
            .Mutate "DeleteProject" ⟨Project.zero⟩
              [("input", .Input ⟨project.ID⟩), ("firstItems", .IntVal 0),
               ("afterItems", .StringPtr none), ("firstFields", .IntVal 0),
               ("afterFields", .StringPtr none)]] ++ tail ∧
      ∀ e ∈ tail, e.isOutput = true := by
    rcases hM : config.client.Mutate "DeleteProject" ⟨Project.zero⟩
        [("input", .Input ⟨project.ID⟩), ("firstItems", .IntVal 0),
         ("afterItems", .StringPtr none), ("firstFields", .IntVal 0),
         ("afterFields", .StringPtr none)] w2 with ⟨r, w3⟩
    cases r with
    | error err =>
      exact ⟨[], by
        simp [runDelete, Client.callNewOwner, Client.callNewProject, Client.callMutate,
          deleteItemArgs, State.log, hOwner, hProject, hM]⟩
    | ok u =>
      by_cases hfmt : config.opts.format = "json"
      · cases hJ : JSONProject project with
        | error err =>
          exact ⟨[], by
            simp [runDelete, Client.callNewOwner, Client.callNewProject, Client.callMutate,
              deleteItemArgs, State.log, hOwner, hProject, hM, hfmt, printJSON, hJ]⟩
        | ok b =>
          exact ⟨[.AddField b, .Render], by
            simp [runDelete, Client.callNewOwner, Client.callNewProject, Client.callMutate,
              deleteItemArgs, State.log, hOwner, hProject, hM, hfmt, printJSON, hJ,
              TablePrinter.callRender, TablePrinter.callAddField, Event.isOutput]⟩
      · by_cases hTTY : config.io.IsStdoutTTY w3 = true
        · exact ⟨[.Write "Deleted project\n"], by
            simp [runDelete, Client.callNewOwner, Client.callNewProject, Client.callMutate,
              deleteItemArgs, State.log, hOwner, hProject, hM, hfmt, printResults, hTTY,
              IOStreams.callWrite, Event.isOutput]⟩
        · exact ⟨[], by
            simp [runDelete, Client.callNewOwner, Client.callNewProject, Client.callMutate,
              deleteItemArgs, State.log, hOwner, hProject, hM, hfmt, printResults, hTTY]⟩
  refine ⟨hcalls, ?_, ?_⟩
  · obtain ⟨tail, ht, hout⟩ := hcalls
    rw [ht]
    exact clientCalls_eq _ _ _ (by simp [Event.isOutput]) hout
  · intro err w3 hM
    simp [runDelete, Client.callNewOwner, Client.callNewProject, Client.callMutate,
      deleteItemArgs, State.log, hOwner, hProject, hM]

/-- Witness for C3: a client on which everything succeeds (the configuration enters
with the stale `projectID` "stale", the mutation carries the resolved "PVT_1"), and a
client whose mutation fails. -/
theorem runDelete_mutation_witness :
    (Example.client Example.project).NewOwner true "@me" 0 = (.ok Example.owner, 1) ∧
    (Example.client Example.project).NewProject true Example.owner 1 false 1
      = (.ok Example.project, 2) ∧
    (∃ tail : List Event,
      (runDelete Example.json (Example.deleteCfg (Example.client Example.project) true "")
          Example.init).2.trace
        = [] ++ [.NewOwner true "@me", .NewProject true Example.owner 1 false,
            .Mutate "DeleteProject" ⟨Project.zero⟩
              [("input", .Input ⟨"PVT_1"⟩), ("firstItems", .IntVal 0),
               ("afterItems", .StringPtr none), ("firstFields", .IntVal 0),
               ("afterFields", .StringPtr none)]] ++ tail ∧
      ∀ e ∈ tail, e.isOutput = true) ∧
    runDelete Example.json (Example.deleteCfg Example.clientNoMutate true "") Example.init
      = (.error (.other "mutation failed"),
         ⟨3, [] ++ [.NewOwner true "@me", .NewProject true Example.owner 1 false,
            .Mutate "DeleteProject" ⟨Project.zero⟩
              [("input", .Input ⟨"PVT_1"⟩), ("firstItems", .IntVal 0),
               ("afterItems", .StringPtr none), ("firstFields", .IntVal 0),
               ("afterFields", .StringPtr none)]]⟩) :=
  ⟨rfl, rfl,
   (runDelete_mutation Example.json (Example.deleteCfg (Example.client Example.project) true "")
      Example.init Example.owner 1 Example.project 2 rfl rfl).1,
   (runDelete_mutation Example.json (Example.deleteCfg Example.clientNoMutate true "")
      Example.init Example.owner 1 Example.project 2 rfl rfl).2.2
      (.other "mutation failed") 3 rfl⟩

/-- C4: `printResults` writes exactly "Deleted project\n" to the output when standard
output is a terminal and returns the writer's error; it writes nothing and returns nil
when it is not.  Hence, after a successful mutation in plain mode (format not "json"),
`runDelete` on a terminal makes the single write "Deleted project\n" and no other
output call, and off a terminal makes no output call and returns nil. -/
theorem delete_plain_output (JSONProject : Project → Except Error String)
    (config : deleteConfig W) (s : State W) (owner : Owner) (w1 : W) (project : Project)
    (w2 w3 : W)
    (hOwner : config.client.NewOwner (config.io.CanPrompt s.world) config.opts.login s.world
      = (.ok owner, w1))
    (hProject : config.client.NewProject (config.io.CanPrompt s.world) owner
      config.opts.number false w1 = (.ok project, w2))
    (hMutate : config.client.Mutate "DeleteProject" ⟨Project.zero⟩
        [("input", .Input ⟨project.ID⟩), ("firstItems", .IntVal 0),
         ("afterItems", .StringPtr none), ("firstFields", .IntVal 0),
         ("afterFields", .StringPtr none)] w2 = (.ok (), w3))
    (hPlain : config.opts.format ≠ "json") :
    (∀ t : State W, config.io.IsStdoutTTY t.world = true →
      printResults config t
        = ((config.io.Out "Deleted project\n" t.world).1,
           ⟨(config.io.Out "Deleted project\n" t.world).2,
            t.trace ++ [.Write "Deleted project\n"]⟩)) ∧
    (∀ t : State W, config.io.IsStdoutTTY t.world = false →
      printResults config t = (.ok (), t)) ∧
    (config.io.IsStdoutTTY w3 = true →
      runDelete JSONProject config s
        = ((config.io.Out "Deleted project\n" w3).1,
           ⟨(config.io.Out "Deleted project\n" w3).2,
            s.trace ++ [.NewOwner (config.io.CanPrompt s.world) config.opts.login,
              .NewProject (config.io.CanPrompt s.world) owner config.opts.number false,
              .Mutate "DeleteProject" ⟨Project.zero⟩
                [("input", .Input ⟨project.ID⟩), ("firstItems", .IntVal 0),
                 ("afterItems", .StringPtr none), ("firstFields", .IntVal 0),
                 ("afterFields", .StringPtr none)],
              .Write "Deleted project\n"]⟩)) ∧
    (config.io.IsStdoutTTY w3 = false →
      runDelete JSONProject config s
        = (.ok (),
           ⟨w3, s.trace ++ [.NewOwner (config.io.CanPrompt s.world) config.opts.login,
              .NewProject (config.io.CanPrompt s.world) owner config.opts.number false,
              .Mutate "DeleteProject" ⟨Project.zero⟩
                [("input", .Input ⟨project.ID⟩), ("firstItems", .IntVal 0),
                 ("afterItems", .StringPtr none), ("firstFields", .IntVal 0),
                 ("afterFields", .StringPtr none)]]⟩)) := by
  refine ⟨?_, ?_, ?_, ?_⟩
  · intro t hTTY
    simp [printResults, hTTY, IOStreams.callWrite, State.log]
  · intro t hTTY
    simp [printResults, hTTY]
  · intro hTTY
    simp [runDelete, Client.callNewOwner, Client.callNewProject, Client.callMutate,
      deleteItemArgs, State.log, hOwner, hProject, hMutate, hPlain, printResults, hTTY,
      IOStreams.callWrite]
  · intro hTTY
    simp [runDelete, Client.callNewOwner, Client.callNewProject, Client.callMutate,
      deleteItemArgs, State.log, hOwner, hProject, hMutate, hPlain, printResults, hTTY]

/-- Witness for C4: the same successful deletion on a terminal and off a terminal. -/
theorem delete_plain_output_witness :
    runDelete Example.json (Example.deleteCfg (Example.client Example.project) true "")
        Example.init
      = (.ok (),
         ⟨4, [] ++ [.NewOwner true "@me", .NewProject true Example.owner 1 false,
            .Mutate "DeleteProject" ⟨Project.zero⟩
              [("input", .Input ⟨"PVT_1"⟩), ("firstItems", .IntVal 0),
               ("afterItems", .StringPtr none), ("firstFields", .IntVal 0),
               ("afterFields", .StringPtr none)],
            .Write "Deleted project\n"]⟩) ∧
    runDelete Example.json (Example.deleteCfg (Example.client Example.project) false "")
        Example.init
      = (.ok (),
         ⟨3, [] ++ [.NewOwner false "@me", .NewProject false Example.owner 1 false,
            .Mutate "DeleteProject" ⟨Project.zero⟩
              [("input", .Input ⟨"PVT_1"⟩), ("firstItems", .IntVal 0),
               ("afterItems", .StringPtr none), ("firstFields", .IntVal 0),
               ("afterFields", .StringPtr none)]]⟩) :=
  ⟨(delete_plain_output Example.json
      (Example.deleteCfg (Example.client Example.project) true "") Example.init
      Example.owner 1 Example.project 2 3 rfl rfl rfl (by decide)).2.2.1 rfl,
   (delete_plain_output Example.json
      (Example.deleteCfg (Example.client Example.project) false "") Example.init
      Example.owner 1 Example.project 2 3 rfl rfl rfl (by decide)).2.2.2 rfl⟩

end delete

/-! ## Theorems: package `itemlist` -/

namespace itemlist

variable {W : Type}

/-- One iteration of the loop appends the row events of its item. -/
theorem row_trace (config : listConfig W) (i : ProjectItem) (s : State W) :
    (printResults.row config i s).trace = s.trace ++ rowEvents i := by
  by_cases h : i.Number = 0 <;>
    simp [printResults.row, TablePrinter.callAddField, TablePrinter.callEndRow, State.log,
      rowEvents, rowFields, numberField, h]

/-- The loop appends the row events of its items, in order. -/
theorem rows_trace (config : listConfig W) (items : List ProjectItem) (s : State W) :
    (items.foldl (fun s i => printResults.row config i s) s).trace
      = s.trace ++ items.flatMap rowEvents := by
  induction items generalizing s with
  | nil => simp
  | cons i rest ih =>
    simp only [List.foldl_cons, List.flatMap_cons]
    rw [ih, row_trace, List.append_assoc]

/-- The trace of `printResults` on a non-empty list. -/
theorem printResults_trace (config : listConfig W) (items : List ProjectItem)
    (login : String) (s : State W) (h : items ≠ []) :
    (printResults config items login s).2.trace
      = s.trace ++ (Event.HeaderRow ["Type", "Title", "Number", "Repository", "ID"]
          :: items.flatMap rowEvents ++ [Event.Render]) := by
  have hlen : items.length ≠ 0 := by
    intro h0
    exact h (List.length_eq_zero.mp h0)
  simp [printResults, hlen, TablePrinter.callRender, TablePrinter.callHeaderRow, State.log,
    rows_trace]

/-- Reading the rows off the events of one item. -/
theorem tableRows_rowEvents (i : ProjectItem) (es : List Event) :
    tableRows (rowEvents i ++ es) [] = rowFields i :: tableRows es [] := by
  simp [rowEvents, rowFields, tableRows]

/-- Reading the rows off the events of a list of items. -/
theorem tableRows_flatMap (items : List ProjectItem) (es : List Event) :
    tableRows (items.flatMap rowEvents ++ es) [] = items.map rowFields ++ tableRows es [] := by
  induction items with
  | nil => simp
  | cons i rest ih =>
    simp only [List.flatMap_cons, List.append_assoc, List.map_cons, List.cons_append]
    rw [tableRows_rowEvents, ih]

/-- The events appended to a trace are recovered by `newEvents`. -/
theorem newEvents_append (before es : List Event) : newEvents before (before ++ es) = es := by
  simp [newEvents]

/-- The table that `printResults` builds on a non-empty list: one row of fields per
item, in order. -/
theorem printResults_rows (config : listConfig W) (items : List ProjectItem)
    (login : String) (s : State W) (h : items ≠ []) :
    tableRows (newEvents s.trace (printResults config items login s).2.trace) []
      = items.map rowFields := by
  rw [printResults_trace config items login s h, newEvents_append]
  show tableRows (items.flatMap rowEvents ++ [Event.Render]) [] = items.map rowFields
  rw [tableRows_flatMap]
  simp [tableRows]

/-- Every call of a table row is an output call. -/
theorem rowEvents_isOutput (items : List ProjectItem) :
    ∀ e ∈ items.flatMap rowEvents, e.isOutput = true := by
  intro e he
  simp only [List.mem_flatMap, rowEvents, rowFields] at he
  obtain ⟨i, _, hi⟩ := he
  simp at hi
  rcases hi with h | h | h | h | h | h <;> simp [h, Event.isOutput]

/-- Everything `printResults` appends to the trace is an output call. -/
theorem printResults_tail (config : listConfig W) (items : List ProjectItem)
    (login : String) (s : State W) :
    ∃ tail, (printResults config items login s).2.trace = s.trace ++ tail ∧
      ∀ e ∈ tail, e.isOutput = true := by
  by_cases h : items = []
  · exact ⟨[], by simp [printResults, h]⟩
  · refine ⟨_, printResults_trace config items login s h, ?_⟩
    intro e he
    simp only [List.mem_cons, List.mem_append, List.not_mem_nil, or_false] at he
    rcases he with (h | h) | h
    · simp [h, Event.isOutput]
    · exact rowEvents_isOutput items e h
    · simp [h, Event.isOutput]

/-- Everything `printJSON` appends to the trace is an output call. -/
theorem printJSON_tail (J : Project → Except Error String) (config : listConfig W)
    (project : Project) (s : State W) :
    ∃ tail, (printJSON J config project s).2.trace = s.trace ++ tail ∧
      ∀ e ∈ tail, e.isOutput = true := by
  cases hJ : J project with
  | error err => exact ⟨[], by simp [printJSON, hJ]⟩
  | ok b =>
    exact ⟨[.Write b], by simp [printJSON, hJ, IOStreams.callWrite, State.log, Event.isOutput]⟩

/-- C6: on a non-empty list of n items, `printResults` calls `HeaderRow` once, first,
with the columns Type, Title, Number, Repository, ID; then, item by item in input
order, five `AddField` calls (`Type()`, `Title()`, the rendered number, `Repo()`,
`ID()`) closed by `EndRow`; then `Render`.  The table so built has exactly n rows, and
its k-th row is the five fields of the k-th item. -/
theorem printResults_table (config : listConfig W) (items : List ProjectItem)
    (login : String) (s : State W) (h : items ≠ []) :
    newEvents s.trace (printResults config items login s).2.trace
      = Event.HeaderRow ["Type", "Title", "Number", "Repository", "ID"]
          :: items.flatMap (fun i =>
              [Event.AddField i.Typ, Event.AddField i.Title, Event.AddField (numberField i),
               Event.AddField i.Repo, Event.AddField i.ID, Event.EndRow])
          ++ [Event.Render] ∧
    (tableRows (newEvents s.trace (printResults config items login s).2.trace) []).length
      = items.length ∧
    ∀ k (hk : k < items.length),
      (tableRows (newEvents s.trace (printResults config items login s).2.trace) [])[k]?
        = some [items[k].Typ, items[k].Title, numberField items[k], items[k].Repo,
                items[k].ID] := by
  have htable := printResults_rows config items login s h
  refine ⟨?_, ?_, ?_⟩
  · rw [printResults_trace config items login s h, newEvents_append]
    rfl
  · rw [htable, List.length_map]
  · intro k hk
    rw [htable, List.getElem?_map, List.getElem?_eq_getElem hk]
    rfl

/-- Witness for C6: the three example items. -/
theorem printResults_table_witness :
    Example.items ≠ [] ∧
    newEvents [] (printResults (Example.listCfg (Example.client Example.project) 1 "")
        Example.items "monalisa" Example.init).2.trace
      = [.HeaderRow ["Type", "Title", "Number", "Repository", "ID"],
         .AddField "DraftIssue", .AddField "a draft", .AddField "", .AddField "",
         .AddField "PVTI_1", .EndRow,
         .AddField "Issue", .AddField "an issue", .AddField "17", .AddField "cli/cli",
         .AddField "PVTI_2", .EndRow,
         .AddField "PullRequest", .AddField "a pull request", .AddField "208",
         .AddField "cli/cli", .AddField "PVTI_3", .EndRow,
         .Render] :=
  ⟨by decide,
   (printResults_table (Example.listCfg (Example.client Example.project) 1 "")
      Example.items "monalisa" Example.init (by decide)).1⟩

/-- The trace of `runList` when the number is given: `NewOwner`, then the fetch with
that number, then output calls only. -/
theorem runList_given_trace (J : Project → Except Error String) (config : listConfig W)
    (s : State W) (owner : Owner) (w1 : W)
    (hOwner : config.client.NewOwner (config.io.CanPrompt s.world) config.opts.login s.world
      = (.ok owner, w1))
    (hnum : config.opts.number ≠ 0) :
    ∃ tail : List Event,
      (runList J config s).2.trace
        = s.trace ++ [.NewOwner (config.io.CanPrompt s.world) config.opts.login,
            .ProjectItems owner config.opts.number config.opts.limit] ++ tail ∧
      ∀ e ∈ tail, e.isOutput = true := by
  rcases hF : config.client.ProjectItems owner config.opts.number config.opts.limit w1
    with ⟨r, w3⟩
  cases r with
  | error err =>
    exact ⟨[], by
      simp [runList, Client.callNewOwner, Client.callProjectItems, State.log, hOwner,
        hnum, hF]⟩
  | ok project =>
    by_cases hfmt : config.opts.format = "json"
    · obtain ⟨tail, ht, hout⟩ := printJSON_tail J config project
        ⟨w3, s.trace ++ [.NewOwner (config.io.CanPrompt s.world) config.opts.login,
          .ProjectItems owner config.opts.number config.opts.limit]⟩
      refine ⟨tail, ?_, hout⟩
      simp [runList, Client.callNewOwner, Client.callProjectItems, State.log, hOwner,
        hnum, hF, hfmt]
      simpa using ht
    · obtain ⟨tail, ht, hout⟩ := printResults_tail config project.Items.Nodes
        owner.Login
        ⟨w3, s.trace ++ [.NewOwner (config.io.CanPrompt s.world) config.opts.login,
          .ProjectItems owner config.opts.number config.opts.limit]⟩
      refine ⟨tail, ?_, hout⟩
      simp [runList, Client.callNewOwner, Client.callProjectItems, State.log, hOwner,
        hnum, hF, hfmt]
      simpa using ht

/-- The trace of `runList` when the number is 0 and the project resolver succeeds:
`NewOwner`, `NewProject`, then the fetch with the resolved number, then output calls
only. -/
theorem runList_resolved_trace (J : Project → Except Error String) (config : listConfig W)
    (s : State W) (owner : Owner) (w1 : W) (project : Project) (w2 : W)
    (hOwner : config.client.NewOwner (config.io.CanPrompt s.world) config.opts.login s.world
      = (.ok owner, w1))
    (hnum : config.opts.number = 0)
    (hP : config.client.NewProject (config.io.CanPrompt s.world) owner config.opts.number
      false w1 = (.ok project, w2)) :
    ∃ tail : List Event,
      (runList J config s).2.trace
        = s.trace ++ [.NewOwner (config.io.CanPrompt s.world) config.opts.login,
            .NewProject (config.io.CanPrompt s.world) owner config.opts.number false,
            .ProjectItems owner project.Number config.opts.limit] ++ tail ∧
      ∀ e ∈ tail, e.isOutput = true := by
  simp only [hnum] at hP ⊢
  rcases hF : config.client.ProjectItems owner project.Number config.opts.limit w2
    with ⟨r, w3⟩
  cases r with
  | error err =>
    exact ⟨[], by
      simp [runList, Client.callNewOwner, Client.callNewProject,
        Client.callProjectItems, State.log, hOwner, hnum, hP, hF]⟩
  | ok fetched =>
    by_cases hfmt : config.opts.format = "json"
    · obtain ⟨tail, ht, hout⟩ := printJSON_tail J
        { config with opts := { config.opts with number := project.Number } } fetched
        ⟨w3, s.trace ++ [.NewOwner (config.io.CanPrompt s.world) config.opts.login,
          .NewProject (config.io.CanPrompt s.world) owner 0 false,
          .ProjectItems owner project.Number config.opts.limit]⟩
      refine ⟨tail, ?_, hout⟩
      simp [runList, Client.callNewOwner, Client.callNewProject,
        Client.callProjectItems, State.log, hOwner, hnum, hP, hF, hfmt]
      simpa [hnum] using ht
    · obtain ⟨tail, ht, hout⟩ := printResults_tail
        { config with opts := { config.opts with number := project.Number } }
        fetched.Items.Nodes owner.Login
        ⟨w3, s.trace ++ [.NewOwner (config.io.CanPrompt s.world) config.opts.login,
          .NewProject (config.io.CanPrompt s.world) owner 0 false,
          .ProjectItems owner project.Number config.opts.limit]⟩
      refine ⟨tail, ?_, hout⟩
      simp [runList, Client.callNewOwner, Client.callNewProject,
        Client.callProjectItems, State.log, hOwner, hnum, hP, hF, hfmt]
      simpa [hnum] using ht

/-- C10: in `runList`, an owner-resolver error is returned as it is after that single
call.  After owner resolution succeeds, `NewProject` is called iff `opts.number` is 0:
with a non-zero number the calls to the client are exactly `NewOwner` and
`ProjectItems(owner, opts.number, opts.limit)`; with number 0 the next call is
`NewProject`, whose error is returned as it is, and on success the calls to the client
are exactly `NewOwner`, `NewProject` and
`ProjectItems(owner, project.Number, opts.limit)`.  Every call after the fetch is an
output call, and a fetch error is returned as it is with no call after the fetch. -/
theorem runList_resolution (J : Project → Except Error String)
    (config : listConfig W) (s : State W) :
    (∀ err w1,
      config.client.NewOwner (config.io.CanPrompt s.world) config.opts.login s.world
        = (.error err, w1) →
      runList J config s
        = (.error err,
           ⟨w1, s.trace ++ [.NewOwner (config.io.CanPrompt s.world) config.opts.login]⟩)) ∧
    (∀ owner w1,
      config.client.NewOwner (config.io.CanPrompt s.world) config.opts.login s.world
        = (.ok owner, w1) →
      (config.opts.number ≠ 0 →
        (∃ tail : List Event,
          (runList J config s).2.trace
            = s.trace ++ [.NewOwner (config.io.CanPrompt s.world) config.opts.login,
                .ProjectItems owner config.opts.number config.opts.limit] ++ tail ∧
          ∀ e ∈ tail, e.isOutput = true) ∧
        clientCalls s.trace (runList J config s).2.trace
          = [.NewOwner (config.io.CanPrompt s.world) config.opts.login,
             .ProjectItems owner config.opts.number config.opts.limit] ∧
        (∀ err w3,
          config.client.ProjectItems owner config.opts.number config.opts.limit w1
            = (.error err, w3) →
          runList J config s
            = (.error err,
               ⟨w3, s.trace ++ [.NewOwner (config.io.CanPrompt s.world) config.opts.login,
                  .ProjectItems owner config.opts.number config.opts.limit]⟩))) ∧
      (config.opts.number = 0 →
        (∀ err w2,
          config.client.NewProject (config.io.CanPrompt s.world) owner config.opts.number
            false w1 = (.error err, w2) →
          runList J config s
            = (.error err,
               ⟨w2, s.trace ++ [.NewOwner (config.io.CanPrompt s.world) config.opts.login,
                  .NewProject (config.io.CanPrompt s.world) owner config.opts.number
                    false]⟩)) ∧
        (∀ project w2,
          config.client.NewProject (config.io.CanPrompt s.world) owner config.opts.number
            false w1 = (.ok project, w2) →
          (∃ tail : List Event,
            (runList J config s).2.trace
              = s.trace ++ [.NewOwner (config.io.CanPrompt s.world) config.opts.login,
                  .NewProject (config.io.CanPrompt s.world) owner config.opts.number false,
                  .ProjectItems owner project.Number config.opts.limit] ++ tail ∧
            ∀ e ∈ tail, e.isOutput = true) ∧
          clientCalls s.trace (runList J config s).2.trace
            = [.NewOwner (config.io.CanPrompt s.world) config.opts.login,
               .NewProject (config.io.CanPrompt s.world) owner config.opts.number false,
               .ProjectItems owner project.Number config.opts.limit] ∧
          (∀ err w3,
            config.client.ProjectItems owner project.Number config.opts.limit w2
              = (.error err, w3) →
            runList J config s
              = (.error err,
                 ⟨w3, s.trace ++ [.NewOwner (config.io.CanPrompt s.world) config.opts.login,
                    .NewProject (config.io.CanPrompt s.world) owner config.opts.number false,
                    .ProjectItems owner project.Number config.opts.limit]⟩))))) := by
  refine ⟨?_, ?_⟩
  · intro err w1 h
    simp [runList, Client.callNewOwner, State.log, h]
  · intro owner w1 hOwner
    refine ⟨?_, ?_⟩
    · intro hnum
      have hcalls := runList_given_trace J config s owner w1 hOwner hnum
      refine ⟨hcalls, ?_, ?_⟩
      · obtain ⟨tail, ht, hout⟩ := hcalls
        rw [ht]
        exact clientCalls_eq _ _ _ (by simp [Event.isOutput]) hout
      · intro err w3 hF
        simp [runList, Client.callNewOwner, Client.callProjectItems, State.log, hOwner,
          hnum, hF]
    · intro hnum
      refine ⟨?_, ?_⟩
      · intro err w2 hP
        simp only [hnum] at hP ⊢
        simp [runList, Client.callNewOwner, Client.callNewProject, State.log, hOwner, hnum,
          hP]
      · intro project w2 hP
        have hcalls := runList_resolved_trace J config s owner w1 project w2 hOwner hnum hP
        refine ⟨hcalls, ?_, ?_⟩
        · obtain ⟨tail, ht, hout⟩ := hcalls
          rw [ht]
          exact clientCalls_eq _ _ _ (by simp [Event.isOutput]) hout
        · intro err w3 hF
          simp only [hnum] at hP ⊢
          simp [runList, Client.callNewOwner, Client.callNewProject,
            Client.callProjectItems, State.log, hOwner, hnum, hP, hF]

/-- Witness for C10: a given number (no `NewProject` call), number 0 (resolved through
`NewProject` to project 1), and a failing fetch. -/
theorem runList_resolution_witness :
    clientCalls [] (runList Example.json
        (Example.listCfg (Example.client ⟨"PVT_1", 7, "Roadmap", ⟨Example.items⟩⟩) 7 "")
        Example.init).2.trace
      = [.NewOwner true "@me", .ProjectItems Example.owner 7 30] ∧
    clientCalls [] (runList Example.json
        (Example.listCfg (Example.client ⟨"PVT_1", 1, "Roadmap", ⟨Example.items⟩⟩) 0 "")
        Example.init).2.trace
      = [.NewOwner true "@me", .NewProject true Example.owner 0 false,
         .ProjectItems Example.owner 1 30] ∧
    runList Example.json (Example.listCfg Example.clientNoItems 7 "") Example.init
      = (.error (.other "fetch failed"),
         ⟨2, [] ++ [.NewOwner true "@me", .ProjectItems Example.owner 7 30]⟩) :=
  ⟨((runList_resolution Example.json
      (Example.listCfg (Example.client ⟨"PVT_1", 7, "Roadmap", ⟨Example.items⟩⟩) 7 "")
      Example.init).2 Example.owner 1 rfl).1 (by decide) |>.2.1,
   (((runList_resolution Example.json
      (Example.listCfg (Example.client ⟨"PVT_1", 1, "Roadmap", ⟨Example.items⟩⟩) 0 "")
      Example.init).2 Example.owner 1 rfl).2 rfl).2 Example.project 2 rfl |>.2.1,
   (((runList_resolution Example.json (Example.listCfg Example.clientNoItems 7 "")
      Example.init).2 Example.owner 1 rfl).1 (by decide)).2.2
      (.other "fetch failed") 2 rfl⟩

/-- C5 (as stated) fails in JSON mode: with `--format json` the fetch returns a project
with 0 items and `runList` writes the serialised project and returns nil. -/
theorem runList_no_items_json_counterexample :
    (Example.client Example.project).ProjectItems Example.owner 1 30 1
      = (.ok Example.project, 2) ∧
    Example.project.Items.Nodes = [] ∧
    runList Example.json (Example.listCfg (Example.client Example.project) 1 "json")
        Example.init
      = (.ok (),
         ⟨3, [.NewOwner true "@me", .ProjectItems Example.owner 1 30,
              .Write "project PVT_1"]⟩) := by
  exact ⟨rfl, rfl, rfl⟩

/-- C5 (amended): in plain mode (format not "json"), when owner resolution succeeds,
the number used for the fetch is `opts.number` if that is non-zero and otherwise the
`Number` of the project that `NewProject` returned, and the fetch succeeds with 0
items, `runList` returns the NoResults error with the message
"Project <number> for login <login> has no items", `<login>` being the resolved
owner's login, and makes no output call (no header row, no table row). -/
theorem runList_no_items (J : Project → Except Error String) (config : listConfig W)
    (s : State W) (owner : Owner) (w1 : W) (number : Int) (w2 : W) (project : Project)
    (w3 : W)
    (hOwner : config.client.NewOwner (config.io.CanPrompt s.world) config.opts.login s.world
      = (.ok owner, w1))
    (hNumber : (config.opts.number ≠ 0 ∧ number = config.opts.number ∧ w2 = w1) ∨
      (config.opts.number = 0 ∧ ∃ resolved : Project,
        config.client.NewProject (config.io.CanPrompt s.world) owner config.opts.number
          false w1 = (.ok resolved, w2) ∧ number = resolved.Number))
    (hFetch : config.client.ProjectItems owner number config.opts.limit w2
      = (.ok project, w3))
    (hEmpty : project.Items.Nodes = [])
    (hPlain : config.opts.format ≠ "json") :
    (runList J config s).1
      = .error (.NoResultsError
          ("Project " ++ strconv.Itoa number ++ " for login " ++ owner.Login
            ++ " has no items")) ∧
    (runList J config s).2.world = w3 ∧
    ∀ e ∈ newEvents s.trace (runList J config s).2.trace, e.isOutput = false := by
  rcases hNumber with ⟨hnum, rfl, rfl⟩ | ⟨hnum, resolved, hP, rfl⟩
  · have hrun : runList J config s
        = (.error (.NoResultsError (Sprintf_no_items config.opts.number owner.Login)),
           ⟨w3, s.trace ++ [.NewOwner (config.io.CanPrompt s.world) config.opts.login,
              .ProjectItems owner config.opts.number config.opts.limit]⟩) := by
      simp [runList, Client.callNewOwner, Client.callProjectItems, State.log, hOwner,
        hnum, hFetch, hPlain, printResults, hEmpty]
    rw [hrun, newEvents_append]
    refine ⟨rfl, rfl, ?_⟩
    intro e he
    simp only [List.mem_cons, List.not_mem_nil, or_false] at he
    rcases he with h | h <;> simp [h, Event.isOutput]
  · simp only [hnum] at hP
    have hrun : runList J config s
        = (.error (.NoResultsError (Sprintf_no_items resolved.Number owner.Login)),
           ⟨w3, s.trace ++ [.NewOwner (config.io.CanPrompt s.world) config.opts.login,
              .NewProject (config.io.CanPrompt s.world) owner 0 false,
              .ProjectItems owner resolved.Number config.opts.limit]⟩) := by
      simp [runList, Client.callNewOwner, Client.callNewProject, Client.callProjectItems,
        State.log, hOwner, hnum, hP, hFetch, hPlain, printResults, hEmpty]
    rw [hrun, newEvents_append]
    refine ⟨rfl, rfl, ?_⟩
    intro e he
    simp only [List.mem_cons, List.not_mem_nil, or_false] at he
    rcases he with h | h | h <;> simp [h, Event.isOutput]

/-- Witness for C5 (amended): plain mode with the number given, and plain mode with
the number resolved through `NewProject`. -/
theorem runList_no_items_witness :
    (runList Example.json (Example.listCfg (Example.client Example.project) 7 "")
        Example.init).1
      = .error (.NoResultsError "Project 7 for login monalisa has no items") ∧
    (runList Example.json (Example.listCfg (Example.client Example.project) 0 "")
        Example.init).1
      = .error (.NoResultsError "Project 1 for login monalisa has no items") :=
  ⟨(runList_no_items Example.json (Example.listCfg (Example.client Example.project) 7 "")
      Example.init Example.owner 1 7 1 Example.project 2 rfl
      (Or.inl ⟨by decide, rfl, rfl⟩) rfl rfl (by decide)).1,
   (runList_no_items Example.json (Example.listCfg (Example.client Example.project) 0 "")
      Example.init Example.owner 1 1 2 Example.project 3 rfl
      (Or.inr ⟨rfl, Example.project, rfl, rfl⟩) rfl rfl (by decide)).1⟩

/-- C7: in every row that `printResults` renders, the Number column (the third field)
is the empty string iff the item's `Number()` is 0; otherwise it is `Itoa(Number())`,
which reads back in base 10 as `Number()` and is not the string "0". -/
theorem printResults_number_column (config : listConfig W) (items : List ProjectItem)
    (login : String) (s : State W) (h : items ≠ []) (k : Nat) (hk : k < items.length) :
    ∃ row col,
      (tableRows (newEvents s.trace (printResults config items login s).2.trace) [])[k]?
        = some row ∧
      row[2]? = some col ∧
      (col = "" ↔ items[k].Number = 0) ∧
      col ≠ "0" ∧
      (items[k].Number ≠ 0 →
        col = strconv.Itoa items[k].Number ∧ Spec.denotedInt col = some items[k].Number) := by
  refine ⟨rowFields items[k], numberField items[k], ?_, rfl, ?_, ?_, ?_⟩
  · rw [printResults_rows config items login s h, List.getElem?_map,
      List.getElem?_eq_getElem hk]
    rfl
  · by_cases h0 : items[k].Number = 0
    · simp [numberField, h0]
    · simp [numberField, h0, (strconv.Itoa_ne items[k].Number).1]
  · by_cases h0 : items[k].Number = 0
    · simp [numberField, h0]
    · simp only [numberField, beq_iff_eq, h0, if_false]
      exact (strconv.Itoa_ne items[k].Number).2 h0
  · intro h0
    simp [numberField, h0, strconv.denotedInt_Itoa]

/-- Witness for C7: the draft item (number 0) and the issue numbered 17 of the example. -/
theorem printResults_number_column_witness :
    ∃ row col,
      (tableRows (newEvents [] (printResults
          (Example.listCfg (Example.client Example.project) 1 "") Example.items "monalisa"
          Example.init).2.trace) [])[1]? = some row ∧
      row[2]? = some col ∧
      (col = "" ↔ (17 : Int) = 0) ∧
      col ≠ "0" ∧
      ((17 : Int) ≠ 0 → col = strconv.Itoa 17 ∧ Spec.denotedInt col = some 17) :=
  printResults_number_column (Example.listCfg (Example.client Example.project) 1 "")
    Example.items "monalisa" Example.init (by decide) 1 (by decide)

end itemlist

/-! ## Theorems: the number argument of both commands -/

/-- C8: for `delete` and for `item-list`, after the client is constructed and given one
positional argument `arg`: the command returns the flag error "invalid number: <arg>"
whatever its run function is, in the state left by the client construction (the run
function is not invoked), iff `arg` is not a base-10 signed integer of the range
[-2^31, 2^31-1]; otherwise its result is that of one invocation of the run function
(`runF`, or `runDelete` / `runList` when `runF` is nil) on the configuration whose
`opts.number` is the integer `arg` denotes.  With no positional argument `opts.number`
is 0. -/
theorem number_argument (arg : String) :
    (∀ (W : Type) (NewClient : W → Except Error (Client W) × W)
       (tableprinterNew : IOStreams W → TablePrinter W) (J : Project → Except Error String)
       (f : Factory W) (login format : String) (s : State W) (client : Client W) (w1 : W),
      NewClient s.world = (.ok client, w1) →
      ((∀ runF, delete.NewCmdDelete NewClient tableprinterNew J f runF login format [arg] s
            = (.error (.FlagError ("invalid number: " ++ arg)), ⟨w1, s.trace⟩))
          ↔ ¬ ∃ z, Spec.denotedInt arg = some z ∧ Spec.inInt32 z) ∧
      (∀ z, Spec.denotedInt arg = some z → Spec.inInt32 z → ∀ runF,
        delete.NewCmdDelete NewClient tableprinterNew J f runF login format [arg] s
          = (runF.getD (delete.runDelete J))
              { tp := tableprinterNew f.IOStreams, client := client,
                opts := { login := login, number := z, projectID := "", format := format },
                io := f.IOStreams } ⟨w1, s.trace⟩) ∧
      (∀ runF,
        delete.NewCmdDelete NewClient tableprinterNew J f runF login format [] s
          = (runF.getD (delete.runDelete J))
              { tp := tableprinterNew f.IOStreams, client := client,
                opts := { login := login, number := 0, projectID := "", format := format },
                io := f.IOStreams } ⟨w1, s.trace⟩)) ∧
    (∀ (W : Type) (clientNew : Factory W → W → Except Error (Client W) × W)
       (tableprinterNew : IOStreams W → TablePrinter W) (J : Project → Except Error String)
       (f : Factory W) (login format : String) (limit : Int) (s : State W)
       (client : Client W) (w1 : W),
      clientNew f s.world = (.ok client, w1) →
      ((∀ runF, itemlist.NewCmdList clientNew tableprinterNew J f runF login format limit
              [arg] s
            = (.error (.FlagError ("invalid number: " ++ arg)), ⟨w1, s.trace⟩))
          ↔ ¬ ∃ z, Spec.denotedInt arg = some z ∧ Spec.inInt32 z) ∧
      (∀ z, Spec.denotedInt arg = some z → Spec.inInt32 z → ∀ runF,
        itemlist.NewCmdList clientNew tableprinterNew J f runF login format limit [arg] s
          = (runF.getD (itemlist.runList J))
              { io := f.IOStreams, tp := tableprinterNew f.IOStreams, client := client,
                opts := { limit := limit, login := login, number := z, format := format } }
              ⟨w1, s.trace⟩) ∧
      (∀ runF,
        itemlist.NewCmdList clientNew tableprinterNew J f runF login format limit [] s
          = (runF.getD (itemlist.runList J))
              { io := f.IOStreams, tp := tableprinterNew f.IOStreams, client := client,
                opts := { limit := limit, login := login, number := 0, format := format } }
              ⟨w1, s.trace⟩)) := by
  have hvalid : ∀ z, Spec.denotedInt arg = some z → Spec.inInt32 z →
      strconv.ParseInt arg 10 32 = (z, none) ∧ strconv.int32 z = z :=
    fun z hz hr => ⟨strconv.ParseInt_ok arg z hz hr, strconv.int32_eq z hr⟩
  have hinvalid : (¬ ∃ z, Spec.denotedInt arg = some z ∧ Spec.inInt32 z) →
      ∃ v e, strconv.ParseInt arg 10 32 = (v, some e) := by
    intro h
    have := strconv.ParseInt_err arg (fun z hz hr => h ⟨z, hz, hr⟩)
    rcases hp : strconv.ParseInt arg 10 32 with ⟨v, e⟩
    cases e with
    | none => rw [hp] at this; exact absurd rfl this
    | some e => exact ⟨v, e, rfl⟩
  refine ⟨?_, ?_⟩
  · intro W NewClient tableprinterNew J f login format s client w1 hC
    have hok : ∀ z, Spec.denotedInt arg = some z → Spec.inInt32 z → ∀ runF,
        delete.NewCmdDelete NewClient tableprinterNew J f runF login format [arg] s
          = (runF.getD (delete.runDelete J))
              { tp := tableprinterNew f.IOStreams, client := client,
                opts := { login := login, number := z, projectID := "", format := format },
                io := f.IOStreams } ⟨w1, s.trace⟩ := by
      intro z hz hr runF
      obtain ⟨hp, h32⟩ := hvalid z hz hr
      cases runF <;> simp [delete.NewCmdDelete, hC, hp, h32]
    refine ⟨⟨?_, ?_⟩, hok, ?_⟩
    · rintro hall ⟨z, hz, hr⟩
      have h1 := hall (some (fun _ t => (.ok (), t)))
      rw [hok z hz hr] at h1
      simp at h1
    · intro hbad runF
      obtain ⟨v, e, hp⟩ := hinvalid hbad
      simp [delete.NewCmdDelete, hC, hp, FlagErrorf_invalid_number]
    · intro runF
      cases runF <;> simp [delete.NewCmdDelete, hC]
  · intro W clientNew tableprinterNew J f login format limit s client w1 hC
    have hok : ∀ z, Spec.denotedInt arg = some z → Spec.inInt32 z → ∀ runF,
        itemlist.NewCmdList clientNew tableprinterNew J f runF login format limit [arg] s
          = (runF.getD (itemlist.runList J))
              { io := f.IOStreams, tp := tableprinterNew f.IOStreams, client := client,
                opts := { limit := limit, login := login, number := z, format := format } }
              ⟨w1, s.trace⟩ := by
      intro z hz hr runF
      obtain ⟨hp, h32⟩ := hvalid z hz hr
      cases runF <;> simp [itemlist.NewCmdList, hC, hp, h32]
    refine ⟨⟨?_, ?_⟩, hok, ?_⟩
    · rintro hall ⟨z, hz, hr⟩
      have h1 := hall (some (fun _ t => (.ok (), t)))
      rw [hok z hz hr] at h1
      simp at h1
    · intro hbad runF
      obtain ⟨v, e, hp⟩ := hinvalid hbad
      simp [itemlist.NewCmdList, hC, hp, FlagErrorf_invalid_number]
    · intro runF
      cases runF <;> simp [itemlist.NewCmdList, hC]

/-- Witness for C8: `delete 2147483648` (one past the 32-bit range) fails with the flag
error, and `item-list -12` runs `runList` with `opts.number = -12`. -/
theorem number_argument_witness :
    Example.newClient Example.init.world = (.ok (Example.client Example.project), 1) ∧
    Example.clientNew Example.factory Example.init.world
      = (.ok (Example.client Example.project), 1) ∧
    (∀ runF, delete.NewCmdDelete Example.newClient (fun _ => Example.tp) Example.json
        Example.factory runF "@me" "" ["2147483648"] Example.init
      = (.error (.FlagError ("invalid number: " ++ "2147483648")), ⟨1, []⟩)) ∧
    (∀ runF, itemlist.NewCmdList Example.clientNew (fun _ => Example.tp) Example.json
        Example.factory runF "@me" "" 30 ["-12"] Example.init
      = (runF.getD (itemlist.runList Example.json))
          { io := Example.factory.IOStreams, tp := Example.tp,
            client := Example.client Example.project,
            opts := { limit := 30, login := "@me", number := -12, format := "" } }
          ⟨1, []⟩) :=
  ⟨rfl, rfl,
   ((number_argument "2147483648").1 Nat Example.newClient (fun _ => Example.tp)
      Example.json Example.factory "@me" "" Example.init
      (Example.client Example.project) 1 rfl).1.mpr
      (by
        rintro ⟨z, hz, hr⟩
        have h : Spec.denotedInt "2147483648" = some 2147483648 := by decide
        rw [h] at hz
        cases hz
        revert hr
        decide),
   ((number_argument "-12").2 Nat Example.clientNew (fun _ => Example.tp)
      Example.json Example.factory "@me" "" 30 Example.init
      (Example.client Example.project) 1 rfl).2.1 (-12) (by decide) (by decide)⟩

/-! ## Theorems: the paginated item fetcher -/

namespace queries

/-- The page at index `k` followed by the later pages is what remains from `k` on. -/
theorem getD_append_drop (pages : List (List ProjectItem)) (k : Nat) :
    pages.getD k [] ++ (pages.drop (k + 1)).flatten = (pages.drop k).flatten := by
  induction pages generalizing k with
  | nil => simp
  | cons p ps ih =>
    cases k with
    | zero => simp
    | succ k => simpa using ih k

/-- The loop over a sequence of pages: up to `limit`, the merged items are the items
accumulated before followed by the remaining pages in order. -/
theorem loop_pages (header : Project) (pages : List (List ProjectItem)) (limit : Int) :
    ∀ (fuel k : Nat) (cursor : Option Nat) (merged : Project),
      cursor.getD 0 = k → pages.length - k < fuel →
      ∃ result, ProjectItems.loop (serverOfPages header pages) limit fuel cursor merged
          = .ok result ∧
        result.Items.Nodes.take limit.toNat
          = (merged.Items.Nodes ++ (pages.drop k).flatten).take limit.toNat := by
  intro fuel
  induction fuel with
  | zero => intro k cursor merged _ h; omega
  | succ fuel ih =>
    intro k cursor merged hk hfuel
    unfold ProjectItems.loop
    by_cases hlim : (merged.Items.Nodes.length : Int) ≥ limit
    · rw [if_pos hlim]
      refine ⟨merged, rfl, ?_⟩
      rw [List.take_append_of_le_length (by omega)]
    · rw [if_neg hlim]
      simp only [serverOfPages, hk]
      by_cases hnext : k + 1 < pages.length
      · simp only [hnext, if_true]
        obtain ⟨result, hres, htake⟩ := ih (k + 1) (some (k + 1))
          { header with Items := ⟨merged.Items.Nodes ++ pages.getD k []⟩ } rfl (by omega)
        refine ⟨result, hres, ?_⟩
        rw [htake]
        simp only [List.append_assoc, getD_append_drop]
      · simp only [hnext, if_false]
        refine ⟨_, rfl, ?_⟩
        have : pages.drop (k + 1) = [] := List.drop_eq_nil_of_le (by omega)
        rw [← getD_append_drop, this]
        simp

/-- C9: for every `limit >= 0` and every sequence of server pages, the fetcher returns
a project (given fuel for one round trip per page) whose item collection is the first
`limit` items of the concatenation of the pages, in that order; its length is
`min(limit, total available items)`. -/
theorem ProjectItems_limit (header : Project) (pages : List (List ProjectItem))
    (owner : Owner) (number limit : Int) (fuel : Nat) (hlimit : 0 ≤ limit)
    (hfuel : pages.length < fuel) :
    ∃ project,
      ProjectItems (fun _ _ => serverOfPages header pages) fuel owner number limit
        = .ok project ∧
      project.Items.Nodes = pages.flatten.take limit.toNat ∧
      (project.Items.Nodes.length : Int) = min limit (pages.flatten.length : Int) := by
  obtain ⟨result, hres, htake⟩ :=
    loop_pages header pages limit fuel 0 none Project.zero rfl (by omega)
  have hnodes : result.Items.Nodes.take limit.toNat = pages.flatten.take limit.toNat := by
    simpa [Project.zero] using htake
  refine ⟨{ result with Items := ⟨result.Items.Nodes.take limit.toNat⟩ }, ?_, hnodes, ?_⟩
  · simp [ProjectItems, hres]
  · simp only [hnodes, List.length_take]
    omega

/-- Witness for C9: three items served as a page of two and a page of one, limit 2. -/
theorem ProjectItems_limit_witness :
    (0 : Int) ≤ 2 ∧
    ∃ project,
      ProjectItems (fun _ _ => serverOfPages Example.project
          [Example.items.take 2, Example.items.drop 2]) 3 Example.owner 1 2
        = .ok project ∧
      project.Items.Nodes
        = [Example.items.take 2, Example.items.drop 2].flatten.take (2 : Int).toNat ∧
      (project.Items.Nodes.length : Int)
        = min 2 (([Example.items.take 2, Example.items.drop 2].flatten.length : Nat) : Int) :=
  ⟨by decide,
   ProjectItems_limit Example.project [Example.items.take 2, Example.items.drop 2]
     Example.owner 1 2 3 (by decide) (by decide)⟩

end queries

end GhProject
